import Mathlib

/-! # Command-line parsing of goverter (`cli/parse.go`)

A shallow embedding of `Parse`, `parseGen`, `usageErr`, `usage` and
`Strings.Set`, together with the part of Go's standard `flag` package that
they drive (`FlagSet.Parse` and `FlagSet.parseOne` under `ContinueOnError`,
with `Usage` set to a no-op and output discarded) and the part of
`fmt.Sprintf` that `usage` drives (plain verbs with string operands).

Go strings are modelled as Lean strings.  The flag scanner inspects a token
only for the ASCII bytes `-` and `=`, which never occur inside a multi-byte
UTF-8 sequence, so scanning characters agrees with scanning bytes.
-/

namespace Cli

/-! ## Data model -/

/-- Modelled from the spec: `enum.Transformer` is declared outside `cli/parse.go`;
the spec describes `EnumTransformers` as a "mapping from name to transformer,
empty at this layer", so a transformer carries no data here. -/
structure Transformer where
  deriving DecidableEq, Repr

/-- The record `config.RawLines`: setting lines and where they come from. -/
structure RawLines where
  Lines : List String
  Location : String
  deriving DecidableEq, Repr

/-- The record `goverter.GenerateConfig`, with the fields `parseGen` fills in.
The map `EnumTransformers` is an association list. -/
structure GenerateConfig where
  PackagePatterns : List String
  BuildTags : String
  OutputBuildConstraint : String
  WorkingDir : String
  EnumTransformers : List (String × Transformer)
  Global : RawLines
  deriving DecidableEq, Repr

/-- The three implementations of the interface `Command`. -/
inductive Command where
  | Generate (Config : GenerateConfig)
  | Help (Usage : String)
  | Version
  deriving DecidableEq, Repr

/-- A Go result pair `(Command, error)`: each component may be nil.  An error
is represented by the text its `Error()` method returns. -/
abbrev Result := Option Command × Option String

/-! ## `type Strings []string` -/

/-- The method `(*Strings).Set`: `*s = append(*s, value)`; it never fails. -/
def Strings.Set (s : List String) (value : String) : List String :=
  s ++ [value]

/-! ## The `flag` package

`Parse` and `parseGen` call `fs.Parse`, which runs `parseOne` until it reports
no flag seen.  The steps of `parseOne` embedded below, in its own order:

* `len(f.args) == 0`: stop, no error;
* `s := f.args[0]`; `len(s) < 2 || s[0] != '-'`: stop, no error, `s` stays;
* `s[1] == '-'` and `len(s) == 2`: drop `s`, stop, no error;
* `name := s[numMinuses:]`; `len(name) == 0 || name[0] == '-' || name[0] == '='`:
  `failf("bad flag syntax: %s", s)`;
* drop `s`; the first `=` at an index `i >= 1` of `name` splits it into
  `name[0:i]` and the value `name[i+1:]`;
* `name` not in `f.formal`: `ErrHelp` when it is `help` or `h`, otherwise
  `failf("flag provided but not defined: -%s", name)`;
* no value yet and an argument is left: it is the value, and is dropped;
* still no value: `failf("flag needs an argument: -%s", name)`;
* `flag.Value.Set(value)`, and the flag counts as seen.
-/

/-- Errors returned by `FlagSet.Parse`: the sentinel `flag.ErrHelp`, or an
error built by `failf` from a formatted message. -/
inductive FlagError where
  | ErrHelp
  | failf (msg : String)
  deriving DecidableEq, Repr

/-- The method `Error()` of a flag error. -/
def FlagError.Error : FlagError → String
  | .ErrHelp => "flag: help requested"
  | .failf msg => msg

/-- What `parseOne` makes of the token at the head of the argument list,
before it looks the name up. -/
inductive Token where
  | positional
  | terminator
  | badSyntax
  | flag (name : String) (value : Option String)
  deriving DecidableEq, Repr

/-- The loop of `parseOne` that looks for `=` from index 1 of the name:
`n0` is the first byte of the name and `ns` the rest. -/
def splitValue (n0 : Char) (ns : List Char) : Token :=
  match ns.span (fun c => c != '=') with
  | (pre, '=' :: value) => .flag (String.mk (n0 :: pre)) (some (String.mk value))
  | _ => .flag (String.mk (n0 :: ns)) none

/-- The lexical part of `parseOne` on the token `s`:
`len(s) < 2 || s[0] != '-'` is a positional token, `--` ends the flags, an
empty name or a name starting with `-` or `=` is bad syntax, and otherwise
the name is cut at the first `=` found from index 1 on. -/
def classify (s : String) : Token :=
  match s.data with
  | [] => .positional
  | [_] => .positional
  | c0 :: c1 :: cs =>
    if c0 != '-' then .positional
    else if c1 == '-' then
      match cs with
      | [] => .terminator
      | n0 :: ns => if n0 == '-' || n0 == '=' then .badSyntax else splitValue n0 ns
    else if c1 == '=' then .badSyntax
    else splitValue c1 cs

/-- The loop of `FlagSet.Parse` over `parseOne`, for a flag set whose table
`formal` maps a name to the `Set` method of its value (none of the values here
is a boolean flag, and none of the `Set` methods fails).  The state `σ` holds
the variables the flags write to.  The result is the error, or the final state
with the remaining arguments `fs.Args()`. -/
def flagParse {σ : Type} (formal : String → Option (String → σ → σ)) :
    List String → σ → Except FlagError (σ × List String)
  | [], st => .ok (st, [])
  | s :: rest, st =>
    match classify s with
    | .positional => .ok (st, s :: rest)
    | .terminator => .ok (st, rest)
    | .badSyntax => .error (.failf ("bad flag syntax: " ++ s))
    | .flag name value =>
      match formal name with
      | none =>
        if name == "help" || name == "h" then .error .ErrHelp
        else .error (.failf ("flag provided but not defined: -" ++ name))
      | some set =>
        match value, rest with
        | some v, rest => flagParse formal rest (set v st)
        | none, v :: rest => flagParse formal rest (set v st)
        | none, [] => .error (.failf ("flag needs an argument: -" ++ name))

/-! ## `usage` and `usageErr` -/

/-- The text of `usage` before the first `%s`. -/
def usageHead : String := "Usage:\n  "

/-- The text of `usage` between the third and the fourth `%s`. -/
def usageBody : String :=
  " version\n" ++
  "\n" ++
  "PACKAGE(s):\n" ++
  "  Define the import paths goverter will use to search for converter interfaces.\n" ++
  "  You can define multiple packages and use the special ... golang pattern to\n" ++
  "  select multiple packages. See $ go help packages\n" ++
  "\n" ++
  "OPTIONS:\n" ++
  "  -build-tags [tags]: (default: goverter)\n" ++
  "      a comma-separated list of additional build tags to consider satisfied\n" ++
  "      during the loading of conversion interfaces. See 'go help buildconstraint'.\n" ++
  "      Can be disabled by supplying an empty string.\n" ++
  "\n" ++
  "  -cwd [value]:\n" ++
  "      set the working directory\n" ++
  "\n" ++
  "  -g [value], -global [value]:\n" ++
  "      apply settings to all defined converters. For a list of available\n" ++
  "      settings see: https://goverter.jmattheis.de/reference/settings\n" ++
  "\n" ++
  "  -output-constraint [constraint]: (default: !goverter)\n" ++
  "      A build constraint added to all files generated by goverter.\n" ++
  "      Can be disabled by supplying an empty string.\n" ++
  "\n" ++
  "Examples:\n" ++
  "  "

/-- The text of `usage` after the last `%s`. -/
def usageTail : String :=
  " gen -g 'ignoreMissing no' -g 'skipCopySameType' ./simple\n" ++
  "\n" ++
  "Documentation:\n" ++
  "  Full documentation is available here: https://goverter.jmattheis.de"

/-- The text after the first `%s` of `usage`, up to the second. -/
def usageGen : String := " gen [OPTIONS] PACKAGE...\n  "

/-- The text after the second `%s` of `usage`, up to the third. -/
def usageHelp : String := " help\n  "

/-- The text after the fourth `%s` of `usage`, up to the fifth. -/
def usageExample1 : String := " gen ./example/simple ./example/complex\n  "

/-- The text after the fifth `%s` of `usage`, up to the sixth. -/
def usageExample2 : String := " gen ./example/...\n  "

/-- The text after the sixth `%s` of `usage`, up to the seventh. -/
def usageExample3 : String := " gen github.com/jmattheis/goverter/example/simple\n  "

/-- The format string of `usage`, as written in the source. -/
def usageFormat : String :=
  "Usage:\n" ++
  "  %s gen [OPTIONS] PACKAGE...\n" ++
  "  %s help\n" ++
  "  %s version\n" ++
  "\n" ++
  "PACKAGE(s):\n" ++
  "  Define the import paths goverter will use to search for converter interfaces.\n" ++
  "  You can define multiple packages and use the special ... golang pattern to\n" ++
  "  select multiple packages. See $ go help packages\n" ++
  "\n" ++
  "OPTIONS:\n" ++
  "  -build-tags [tags]: (default: goverter)\n" ++
  "      a comma-separated list of additional build tags to consider satisfied\n" ++
  "      during the loading of conversion interfaces. See 'go help buildconstraint'.\n" ++
  "      Can be disabled by supplying an empty string.\n" ++
  "\n" ++
  "  -cwd [value]:\n" ++
  "      set the working directory\n" ++
  "\n" ++
  "  -g [value], -global [value]:\n" ++
  "      apply settings to all defined converters. For a list of available\n" ++
  "      settings see: https://goverter.jmattheis.de/reference/settings\n" ++
  "\n" ++
  "  -output-constraint [constraint]: (default: !goverter)\n" ++
  "      A build constraint added to all files generated by goverter.\n" ++
  "      Can be disabled by supplying an empty string.\n" ++
  "\n" ++
  "Examples:\n" ++
  "  %s gen ./example/simple ./example/complex\n" ++
  "  %s gen ./example/...\n" ++
  "  %s gen github.com/jmattheis/goverter/example/simple\n" ++
  "  %s gen -g 'ignoreMissing no' -g 'skipCopySameType' ./simple\n" ++
  "\n" ++
  "Documentation:\n" ++
  "  Full documentation is available here: https://goverter.jmattheis.de"

/-- What `fmt.Sprintf` appends for string operands that no verb has used:
`%!(EXTRA string=a, string=b)`, and nothing when none is left. -/
def extraOperands : List String → List Char
  | [] => []
  | a :: rest =>
    "%!(EXTRA ".data ++ "string=".data ++ a.data ++
      rest.flatMap (fun b => ", string=".data ++ b.data) ++ [')']

/-- The loop `doPrintf` of `fmt.Sprintf` over the bytes of the format, for
string operands and verbs written without flags, width or precision (the only
ones in this file; the verbs `q`, `x` and `X` are not used in it either).
Bytes other than `%` are copied; `%%` writes `%`; `%s` and `%v` write the next
operand; another verb writes `%!c(string=a)`; a verb with no operand left
writes `%!c(MISSING)`; a `%` that ends the format writes `%!(NOVERB)`; the
operands left at the end are reported by `extraOperands`. -/
def doPrintf : List Char → List String → List Char
  | [], args => extraOperands args
  | ['%'], args => "%!(NOVERB)".data ++ extraOperands args
  | '%' :: verb :: format, args =>
    if verb = '%' then '%' :: doPrintf format args
    else
      match args with
      | [] => "%!".data ++ [verb] ++ "(MISSING)".data ++ doPrintf format []
      | a :: rest =>
        (if verb = 's' ∨ verb = 'v' then a.data
          else "%!".data ++ [verb] ++ "(string=".data ++ a.data ++ [')'])
          ++ doPrintf format rest
  | c :: format, args => c :: doPrintf format args

/-- The function `fmt.Sprintf` on string operands. -/
def Sprintf (format : String) (args : List String) : String :=
  String.mk (doPrintf format.data args)

/-- The function `usage`: `fmt.Sprintf` of the format with the seven operands
`cmd`. -/
def usage (cmd : String) : String :=
  Sprintf usageFormat [cmd, cmd, cmd, cmd, cmd, cmd, cmd]

/-- The function `usageErr`: `fmt.Errorf("Error: %s\n%s", err, usage(cmd))`. -/
def usageErr (err cmd : String) : String :=
  "Error: " ++ err ++ "\n" ++ usage cmd

/-! ## `parseGen` and `Parse` -/

/-- The variables the flags of `parseGen` write to. -/
structure GenFlags where
  global : List String
  buildTags : String
  outputConstraint : String
  cwd : String
  deriving DecidableEq, Repr

/-- The variables of `parseGen` as declared: `global` is nil and the three
string flags hold their defaults. -/
def genDefaults : GenFlags :=
  { global := [], buildTags := "goverter", outputConstraint := "!goverter", cwd := "" }

/-- The flag table of `parseGen`: `global` and `g` both set the variable
`global`; `build-tags`, `output-constraint` and `cwd` are string flags. -/
def genFormal (name : String) : Option (String → GenFlags → GenFlags) :=
  if name = "global" then some (fun v st => { st with global := Strings.Set st.global v })
  else if name = "g" then some (fun v st => { st with global := Strings.Set st.global v })
  else if name = "build-tags" then some (fun v st => { st with buildTags := v })
  else if name = "output-constraint" then some (fun v st => { st with outputConstraint := v })
  else if name = "cwd" then some (fun v st => { st with cwd := v })
  else none

/-- The flag table of the top-level flag set of `Parse`: no flag is defined. -/
def topFormal (_name : String) : Option (String → Unit → Unit) := none

/-- The function `parseGen`. -/
def parseGen (cmd : String) (args : List String) : Result :=
  match flagParse genFormal args genDefaults with
  | .error .ErrHelp => (some (.Help (usage cmd)), none)
  | .error err => (none, some (usageErr err.Error cmd))
  | .ok (fl, patterns) =>
    if patterns.length = 0 then (none, some (usageErr "missing PATTERN" cmd))
    else
      let c : GenerateConfig :=
        { PackagePatterns := patterns
          BuildTags := fl.buildTags
          OutputBuildConstraint := fl.outputConstraint
          WorkingDir := fl.cwd
          EnumTransformers := []
          Global := { Lines := fl.global, Location := "command line (-g, -global)" } }
      (some (.Generate c), none)

/-- The function `Parse`. -/
def Parse (args : List String) : Result :=
  match args with
  | [] => (none, some (usageErr "invalid args" "unknown"))
  | cmd :: tail =>
    match flagParse topFormal tail () with
    | .error .ErrHelp => (some (.Help (usage cmd)), none)
    | .error err => (none, some (usageErr err.Error cmd))
    | .ok (_, subArgs) =>
      match subArgs with
      | [] => (none, some (usageErr "missing command" cmd))
      | sub :: rest =>
        if sub = "gen" then parseGen cmd rest
        else if sub = "version" then (some .Version, none)
        else if sub = "help" then (some (.Help (usage cmd)), none)
        else (none, some (usageErr ("unknown command " ++ sub) cmd))

/-! ## Predicates used in the statements -/

/-- A token at which `parseOne` stops without consuming anything:
`len(s) < 2 || s[0] != '-'`. -/
def nonFlag (s : String) : Prop :=
  s.length < 2 ∨ s.data.head? ≠ some '-'

instance (s : String) : Decidable (nonFlag s) := by
  unfold nonFlag; exact inferInstance

/-- The argument list spelled by a sequence of (flag spelling, value) pairs. -/
def flattenPairs (pairs : List (String × String)) : List String :=
  pairs.flatMap (fun q => [q.1, q.2])

/-- Every token of the list is read by `flagParse` as a flag of the table
`formal` or as the value of such a flag: no token is a positional, the
terminator, bad syntax or an undefined flag, and no flag lacks its value. -/
def readsAsFlags {σ : Type} (formal : String → Option (String → σ → σ)) :
    List String → Bool
  | [] => true
  | s :: rest =>
    match classify s with
    | .flag name value =>
      match formal name with
      | none => false
      | some _ =>
        match value, rest with
        | some _, rest => readsAsFlags formal rest
        | none, _ :: rest => readsAsFlags formal rest
        | none, [] => false
    | _ => false

/-! ## Lemmas on the flag scanner -/

theorem classify_of_nonFlag {s : String} (h : nonFlag s) : classify s = .positional := by
  obtain ⟨cs⟩ := s
  unfold nonFlag at h
  match cs, h with
  | [], _ => rfl
  | [_], _ => rfl
  | c0 :: c1 :: cs, h =>
    have hc : c0 ≠ '-' := by
      rcases h with h | h
      · simp [String.length] at h; omega
      · simpa using h
    simp [classify, hc]

theorem flagParse_nil {σ : Type} (formal : String → Option (String → σ → σ)) (st : σ) :
    flagParse formal [] st = .ok (st, []) := by
  simp [flagParse]

theorem flagParse_nonFlag {σ : Type} (formal : String → Option (String → σ → σ))
    (p : String) (rest : List String) (st : σ) (h : nonFlag p) :
    flagParse formal (p :: rest) st = .ok (st, p :: rest) := by
  rw [flagParse, classify_of_nonFlag h]

/-- A defined flag given as a name without `=` takes the next token as its
value, whatever that token is. -/
theorem flagParse_flag_next {σ : Type} (formal : String → Option (String → σ → σ))
    (s name v : String) (rest : List String) (st : σ) (set : String → σ → σ)
    (hs : classify s = .flag name none) (hf : formal name = some set) :
    flagParse formal (s :: v :: rest) st = flagParse formal rest (set v st) := by
  rw [flagParse, hs]
  simp [hf]

theorem classify_g : classify "-g" = .flag "g" none := by decide

theorem classify_global : classify "-global" = .flag "global" none := by decide

theorem classify_build_tags : classify "-build-tags" = .flag "build-tags" none := by decide

theorem classify_output_constraint :
    classify "-output-constraint" = .flag "output-constraint" none := by decide

theorem classify_cwd : classify "-cwd" = .flag "cwd" none := by decide

theorem classify_h : classify "-h" = .flag "h" none := by decide

theorem classify_help : classify "-help" = .flag "help" none := by decide

theorem nonFlag_gen : nonFlag "gen" := by decide

theorem nonFlag_version : nonFlag "version" := by decide

theorem nonFlag_help : nonFlag "help" := by decide

/-- Both spellings of the repeatable flag append to the one variable `global`. -/
theorem flagParse_global_pairs (pairs : List (String × String)) (rest : List String)
    (st : GenFlags) (h : ∀ q ∈ pairs, q.1 = "-g" ∨ q.1 = "-global") :
    flagParse genFormal (flattenPairs pairs ++ rest) st =
      flagParse genFormal rest { st with global := st.global ++ pairs.map Prod.snd } := by
  induction pairs generalizing st with
  | nil => simp [flattenPairs]
  | cons q qs ih =>
    have hq := h q (List.mem_cons_self _ _)
    have hqs : ∀ r ∈ qs, r.1 = "-g" ∨ r.1 = "-global" :=
      fun r hr => h r (List.mem_cons_of_mem _ hr)
    have hflat : flattenPairs (q :: qs) ++ rest = q.1 :: q.2 :: (flattenPairs qs ++ rest) := by
      simp [flattenPairs]
    rw [hflat]
    rcases hq with hq | hq
    · rw [hq, flagParse_flag_next genFormal "-g" "g" q.2 _ st _ classify_g rfl, ih _ hqs]
      simp [Strings.Set]
    · rw [hq, flagParse_flag_next genFormal "-global" "global" q.2 _ st _ classify_global rfl,
        ih _ hqs]
      simp [Strings.Set]

/-- When the flag parser consumes a whole list without error, a positional
token appended to the list ends the parse in the same state, and the
positional and everything after it are the remaining arguments. -/
theorem flagParse_append_of_ok {σ : Type} (formal : String → Option (String → σ → σ))
    (F : List String) (st fl : σ) (p : String) (tail : List String)
    (h : flagParse formal F st = .ok (fl, [])) (hp : nonFlag p) :
    flagParse formal (F ++ p :: tail) st = .ok (fl, p :: tail) := by
  induction F, st using flagParse.induct formal with
  | case1 st =>
    simp [flagParse] at h
    simpa [h] using flagParse_nonFlag formal p tail st hp
  | case2 s rest st hs => simp [flagParse, hs] at h
  | case3 s rest st hs =>
    simp [flagParse, hs] at h
    simp [flagParse, hs, h.1, h.2]
  | case4 s rest st hs => simp [flagParse, hs] at h
  | case5 s rest st name value hs hf hh =>
    rw [flagParse, hs] at h
    simp [hf] at h
    split_ifs at h
  | case6 s rest st name value hs hf hh =>
    rw [flagParse, hs] at h
    simp [hf] at h
    split_ifs at h
  | case7 s st name set hf v rest hs ih =>
    rw [flagParse, hs] at h
    simp [hf] at h
    rw [List.cons_append, flagParse, hs]
    simpa [hf] using ih h
  | case8 s st name set hf v rest hs ih =>
    rw [flagParse, hs] at h
    simp [hf] at h
    rw [List.cons_append, List.cons_append, flagParse, hs]
    simpa [hf] using ih h
  | case9 s st name set hf hs =>
    rw [flagParse, hs] at h
    simp [hf] at h

/-- When every token of a list is read as a flag or a flag value, parsing the
list followed by any tail is parsing the tail from the state the flags leave. -/
theorem flagParse_readsAsFlags {σ : Type} (formal : String → Option (String → σ → σ))
    (F : List String) (hF : readsAsFlags formal F = true) (st : σ) :
    ∃ st1, ∀ tail, flagParse formal (F ++ tail) st = flagParse formal tail st1 := by
  induction F using readsAsFlags.induct formal generalizing st with
  | case1 => exact ⟨st, fun tail => rfl⟩
  | case2 s rest name value hs hf => simp [readsAsFlags, hs, hf] at hF
  | case3 s name set hf v rest hs ih =>
    simp [readsAsFlags, hs, hf] at hF
    obtain ⟨st1, h1⟩ := ih hF (set v st)
    refine ⟨st1, fun tail => ?_⟩
    rw [List.cons_append, flagParse, hs]
    simpa [hf] using h1 tail
  | case4 s name set hf v rest hs ih =>
    simp [readsAsFlags, hs, hf] at hF
    obtain ⟨st1, h1⟩ := ih hF (set v st)
    refine ⟨st1, fun tail => ?_⟩
    rw [List.cons_append, List.cons_append, flagParse, hs]
    simpa [hf] using h1 tail
  | case5 s name set hf hs => simp [readsAsFlags, hs, hf] at hF
  | case6 s rest hs =>
    rw [readsAsFlags] at hF
    split at hF
    · rename_i name value hc
      exact absurd hc (hs name value)
    · simp at hF

/-! ## Lemmas on `Parse` and `parseGen` -/

/-- The sub-command `gen` hands the tokens after it to `parseGen`. -/
theorem Parse_gen (cmd : String) (rest : List String) :
    Parse (cmd :: "gen" :: rest) = parseGen cmd rest := by
  simp [Parse, flagParse_nonFlag topFormal "gen" rest () nonFlag_gen]

/-- What `parseGen` returns once the flags are parsed and a pattern is left. -/
theorem parseGen_of_ok (cmd : String) (args : List String) (fl : GenFlags) (p : String)
    (tail : List String) (h : flagParse genFormal args genDefaults = .ok (fl, p :: tail)) :
    parseGen cmd args = (some (.Generate
      { PackagePatterns := p :: tail
        BuildTags := fl.buildTags
        OutputBuildConstraint := fl.outputConstraint
        WorkingDir := fl.cwd
        EnumTransformers := []
        Global := { Lines := fl.global, Location := "command line (-g, -global)" } }), none) := by
  simp [parseGen, h]

/-! ## Claims -/

/-- C1: for every command name, every sequence of pairs of a spelling `-g` or
`-global` and an arbitrary value, and every non-empty positional list whose
first element is a non-flag token, `Parse` of the name, `gen`, the flattened
pairs and the positionals returns a Generate command whose `Global.Lines` is
the list of the values in the order of the pairs, whichever spelling each
pair used. -/
theorem global_lines_in_order (cmd : String) (pairs : List (String × String))
    (p : String) (tail : List String)
    (hsp : ∀ q ∈ pairs, q.1 = "-g" ∨ q.1 = "-global") (hp : nonFlag p) :
    Parse ([cmd, "gen"] ++ flattenPairs pairs ++ (p :: tail)) = (some (.Generate
      { PackagePatterns := p :: tail
        BuildTags := "goverter"
        OutputBuildConstraint := "!goverter"
        WorkingDir := ""
        EnumTransformers := []
        Global := { Lines := pairs.map Prod.snd,
                    Location := "command line (-g, -global)" } }), none) := by
  have hparse : flagParse genFormal (flattenPairs pairs ++ (p :: tail)) genDefaults =
      .ok ({ genDefaults with global := genDefaults.global ++ pairs.map Prod.snd }, p :: tail) := by
    rw [flagParse_global_pairs pairs _ _ hsp, flagParse_nonFlag genFormal p tail _ hp]
  show Parse (cmd :: "gen" :: (flattenPairs pairs ++ (p :: tail))) = _
  rw [Parse_gen, parseGen_of_ok cmd _ _ p tail hparse]
  simp [genDefaults]

theorem global_lines_in_order_witness :
    Parse (["x", "gen"] ++ flattenPairs [("-g", "a"), ("-global", "b")] ++ ["./pkg"])
      = (some (.Generate
      { PackagePatterns := ["./pkg"]
        BuildTags := "goverter"
        OutputBuildConstraint := "!goverter"
        WorkingDir := ""
        EnumTransformers := []
        Global := { Lines := [("-g", "a"), ("-global", "b")].map Prod.snd,
                    Location := "command line (-g, -global)" } }), none) :=
  global_lines_in_order "x" [("-g", "a"), ("-global", "b")] "./pkg" [] (by decide) (by decide)

/-- C2: for every command name and every non-empty list whose first element is
a non-flag token, `Parse` of the name, `gen` and the list returns no error and
a Generate command with `PackagePatterns` the list, `BuildTags` `goverter`,
`OutputBuildConstraint` `!goverter`, `WorkingDir` empty, `Global.Lines` empty,
`Global.Location` `command line (-g, -global)` and `EnumTransformers` empty. -/
theorem gen_defaults (cmd p : String) (tail : List String) (hp : nonFlag p) :
    Parse ([cmd, "gen"] ++ (p :: tail)) = (some (.Generate
      { PackagePatterns := p :: tail
        BuildTags := "goverter"
        OutputBuildConstraint := "!goverter"
        WorkingDir := ""
        EnumTransformers := []
        Global := { Lines := [], Location := "command line (-g, -global)" } }), none) := by
  show Parse (cmd :: "gen" :: p :: tail) = _
  rw [Parse_gen, parseGen_of_ok cmd _ genDefaults p tail (flagParse_nonFlag genFormal p tail _ hp)]
  rfl

theorem gen_defaults_witness :
    Parse (["x", "gen"] ++ ["./pkg"]) = (some (.Generate
      { PackagePatterns := ["./pkg"]
        BuildTags := "goverter"
        OutputBuildConstraint := "!goverter"
        WorkingDir := ""
        EnumTransformers := []
        Global := { Lines := [], Location := "command line (-g, -global)" } }), none) :=
  gen_defaults "x" "./pkg" [] (by decide)

/-- C3: for every command name, every string `v` (also empty or starting with
`-`) and every non-flag token `p`, `parseGen` on `-build-tags v p` returns
Generate with `BuildTags = v`, on `-output-constraint v p` Generate with
`OutputBuildConstraint = v`, on `-cwd v p` Generate with `WorkingDir = v`, and
in each case every other field of the configuration has the value it has for
`parseGen` on `p` alone. -/
theorem scalar_flag_sets_one_field (cmd v p : String) (hp : nonFlag p) :
    ∃ c0, parseGen cmd [p] = (some (.Generate c0), none)
      ∧ parseGen cmd ["-build-tags", v, p] =
          (some (.Generate { c0 with BuildTags := v }), none)
      ∧ parseGen cmd ["-output-constraint", v, p] =
          (some (.Generate { c0 with OutputBuildConstraint := v }), none)
      ∧ parseGen cmd ["-cwd", v, p] =
          (some (.Generate { c0 with WorkingDir := v }), none) := by
  have h0 := flagParse_nonFlag genFormal p [] genDefaults hp
  have hb : flagParse genFormal ["-build-tags", v, p] genDefaults =
      .ok ({ genDefaults with buildTags := v }, [p]) := by
    rw [flagParse_flag_next genFormal "-build-tags" "build-tags" v [p] _ _
      classify_build_tags rfl, flagParse_nonFlag genFormal p [] _ hp]
  have ho : flagParse genFormal ["-output-constraint", v, p] genDefaults =
      .ok ({ genDefaults with outputConstraint := v }, [p]) := by
    rw [flagParse_flag_next genFormal "-output-constraint" "output-constraint" v [p] _ _
      classify_output_constraint rfl, flagParse_nonFlag genFormal p [] _ hp]
  have hc : flagParse genFormal ["-cwd", v, p] genDefaults =
      .ok ({ genDefaults with cwd := v }, [p]) := by
    rw [flagParse_flag_next genFormal "-cwd" "cwd" v [p] _ _ classify_cwd rfl,
      flagParse_nonFlag genFormal p [] _ hp]
  exact ⟨_, parseGen_of_ok cmd _ _ p [] h0, parseGen_of_ok cmd _ _ p [] hb,
    parseGen_of_ok cmd _ _ p [] ho, parseGen_of_ok cmd _ _ p [] hc⟩

theorem scalar_flag_sets_one_field_witness :
    ∃ c0, parseGen "x" ["./pkg"] = (some (.Generate c0), none)
      ∧ parseGen "x" ["-build-tags", "-h", "./pkg"] =
          (some (.Generate { c0 with BuildTags := "-h" }), none)
      ∧ parseGen "x" ["-output-constraint", "-h", "./pkg"] =
          (some (.Generate { c0 with OutputBuildConstraint := "-h" }), none)
      ∧ parseGen "x" ["-cwd", "-h", "./pkg"] =
          (some (.Generate { c0 with WorkingDir := "-h" }), none) :=
  scalar_flag_sets_one_field "x" "-h" "./pkg" (by decide)

/-- C4: for every command name, every flag prefix `F` that the flag parser of
`parseGen` consumes without error, and every non-empty list `p :: tail` whose
first element is a non-flag token, `parseGen` on `F` followed by the list
returns Generate with `PackagePatterns` the list verbatim and with every other
field as for `parseGen` on `F` followed by `p` alone: the tokens after the
first positional are never read as flags, whatever their spelling. -/
theorem positionals_verbatim (cmd : String) (F : List String) (fl : GenFlags) (p : String)
    (tail : List String) (hF : flagParse genFormal F genDefaults = .ok (fl, []))
    (hp : nonFlag p) :
    ∃ c1, parseGen cmd (F ++ [p]) = (some (.Generate c1), none)
      ∧ parseGen cmd (F ++ p :: tail) =
          (some (.Generate { c1 with PackagePatterns := p :: tail }), none) :=
  ⟨_, parseGen_of_ok cmd _ fl p [] (flagParse_append_of_ok genFormal F _ fl p [] hF hp),
    parseGen_of_ok cmd _ fl p tail (flagParse_append_of_ok genFormal F _ fl p tail hF hp)⟩

theorem positionals_verbatim_witness :
    ∃ c1, parseGen "x" (["-g", "a", "-cwd=d"] ++ ["./pkg"]) = (some (.Generate c1), none)
      ∧ parseGen "x" (["-g", "a", "-cwd=d"] ++ "./pkg" :: ["-g", "-h", "-cwd", "-bogus"]) =
          (some (.Generate
            { c1 with PackagePatterns := "./pkg" :: ["-g", "-h", "-cwd", "-bogus"] }), none) :=
  positionals_verbatim "x" ["-g", "a", "-cwd=d"] { genDefaults with global := ["a"], cwd := "d" }
    "./pkg" ["-g", "-h", "-cwd", "-bogus"] rfl (by decide)

/-- A Generate command returned by `parseGen` has at least one pattern. -/
theorem parseGen_generate_nonempty (cmd : String) (args : List String) (c : GenerateConfig)
    (h : (parseGen cmd args).1 = some (.Generate c)) : c.PackagePatterns ≠ [] := by
  unfold parseGen at h
  split at h
  · simp at h
  · simp at h
  · rename_i fl patterns _
    cases patterns with
    | nil => simp at h
    | cons q qs =>
      simp at h
      rw [← h]
      simp

/-- C5: for every argument vector, if `Parse` returns a Generate command then
its `PackagePatterns` has at least one element. -/
theorem generate_has_pattern (args : List String) (c : GenerateConfig)
    (h : (Parse args).1 = some (.Generate c)) : c.PackagePatterns ≠ [] := by
  unfold Parse at h
  split at h
  · simp at h
  · split at h
    · simp at h
    · simp at h
    · split at h
      · simp at h
      · split_ifs at h
        all_goals first
          | exact parseGen_generate_nonempty _ _ c h
          | simp at h

theorem generate_has_pattern_witness :
    ({ PackagePatterns := ["./pkg"]
       BuildTags := "goverter"
       OutputBuildConstraint := "!goverter"
       WorkingDir := ""
       EnumTransformers := []
       Global := { Lines := [], Location := "command line (-g, -global)" } }
      : GenerateConfig).PackagePatterns ≠ [] :=
  generate_has_pattern ["x", "gen", "./pkg"] _ (by decide)

/-- C6: for every command name and every `gen` argument list `F` that the flag
parser consumes without error and that leaves no positional token (such as the
empty list), `Parse` of the name, `gen` and `F` returns no command and the
error text `Error: missing PATTERN`, a newline, and `usage` of the name. -/
theorem missing_pattern (cmd : String) (F : List String) (fl : GenFlags)
    (hF : flagParse genFormal F genDefaults = .ok (fl, [])) :
    Parse ([cmd, "gen"] ++ F) = (none, some ("Error: missing PATTERN\n" ++ usage cmd)) := by
  have hlit : "Error: missing PATTERN\n" = "Error: " ++ "missing PATTERN" ++ "\n" := by decide
  show Parse (cmd :: "gen" :: F) = _
  rw [Parse_gen, hlit]
  simp [parseGen, hF, usageErr]

theorem missing_pattern_witness :
    Parse (["x", "gen"] ++ []) = (none, some ("Error: missing PATTERN\n" ++ usage "x"))
      ∧ Parse (["x", "gen"] ++ ["-g", "a", "--"]) =
          (none, some ("Error: missing PATTERN\n" ++ usage "x")) :=
  ⟨missing_pattern "x" [] genDefaults rfl,
    missing_pattern "x" ["-g", "a", "--"] { genDefaults with global := ["a"] } rfl⟩

/-- C7: for every command name and every list `rest`, `Parse` of the name
followed by `help`, by `-h`, or by `gen -h`, and then `rest`, returns a nil
error and a Help command whose usage text is `usage` of the name. -/
theorem help_at_both_levels (cmd : String) (rest : List String) :
    Parse ([cmd, "help"] ++ rest) = (some (.Help (usage cmd)), none)
      ∧ Parse ([cmd, "-h"] ++ rest) = (some (.Help (usage cmd)), none)
      ∧ Parse ([cmd, "gen", "-h"] ++ rest) = (some (.Help (usage cmd)), none) := by
  refine ⟨?_, ?_, ?_⟩
  · simp [Parse, flagParse_nonFlag topFormal "help" rest () nonFlag_help]
  · simp [Parse, flagParse, classify_h, topFormal]
  · show Parse (cmd :: "gen" :: "-h" :: rest) = _
    rw [Parse_gen]
    simp [parseGen, flagParse, classify_h, genFormal]

/-- C8, as stated, fails: in `-g -h ./pkg` the help token `-h` comes before the
first non-flag token, yet it is taken as the value of `-g`, and `parseGen`
returns a Generate command with `Global.Lines = ["-h"]`, not Help. -/
theorem help_token_taken_as_value :
    (∀ t ∈ ["-g"], ¬ nonFlag t)
      ∧ parseGen "x" (["-g"] ++ "-h" :: ["./pkg"]) = (some (.Generate
          { PackagePatterns := ["./pkg"]
            BuildTags := "goverter"
            OutputBuildConstraint := "!goverter"
            WorkingDir := ""
            EnumTransformers := []
            Global := { Lines := ["-h"], Location := "command line (-g, -global)" } }), none)
      ∧ parseGen "x" (["-g"] ++ "-h" :: ["./pkg"]) ≠ (some (.Help (usage "x")), none) := by
  decide

/-- C8, amended: for every command name and every `gen` argument list in which
a help token `-h` or `-help` follows a prefix `F` whose tokens are all read as
defined flags or as values of defined flags, `parseGen` returns a nil error and
a Help command whose usage text is `usage` of the name, whatever follows the
help token. -/
theorem help_after_flags (cmd : String) (F rest : List String) (h : String)
    (hF : readsAsFlags genFormal F = true) (hh : h = "-h" ∨ h = "-help") :
    parseGen cmd (F ++ h :: rest) = (some (.Help (usage cmd)), none) := by
  obtain ⟨st1, h1⟩ := flagParse_readsAsFlags genFormal F hF genDefaults
  unfold parseGen
  rw [h1 (h :: rest)]
  rcases hh with hh | hh
  · subst hh
    simp [flagParse, classify_h, genFormal]
  · subst hh
    simp [flagParse, classify_help, genFormal]

theorem help_after_flags_witness :
    parseGen "x" (["-g", "-h", "-cwd=d"] ++ "-help" :: ["./pkg", "-bogus"]) =
      (some (.Help (usage "x")), none) :=
  help_after_flags "x" ["-g", "-h", "-cwd=d"] ["./pkg", "-bogus"] "-help" (by decide)
    (Or.inr rfl)

/-- C9: for every command name, every list `rest` and every non-flag token `t`
other than `gen`, `version` and `help`, `Parse` of the name, `t` and `rest`
returns no command and the error text `Error: unknown command t`, a newline,
and `usage` of the name. -/
theorem unknown_command (cmd t : String) (rest : List String) (ht : nonFlag t)
    (hgen : t ≠ "gen") (hversion : t ≠ "version") (hhelp : t ≠ "help") :
    Parse ([cmd, t] ++ rest) =
      (none, some ("Error: unknown command " ++ t ++ "\n" ++ usage cmd)) := by
  have hlit : "Error: unknown command " = "Error: " ++ "unknown command " := by decide
  simp only [Parse, List.cons_append, List.nil_append, flagParse_nonFlag topFormal t rest () ht,
    if_neg hgen, if_neg hversion, if_neg hhelp, usageErr]
  rw [hlit]
  simp only [String.append_assoc]

theorem unknown_command_witness :
    Parse (["x", "frobnicate"] ++ ["gen", "./pkg"]) =
      (none, some ("Error: unknown command " ++ "frobnicate" ++ "\n" ++ usage "x")) :=
  unknown_command "x" "frobnicate" ["gen", "./pkg"] (by decide) (by decide) (by decide)
    (by decide)

/-- C10: for every command name and every list `rest`, `Parse` of the name,
`version` and `rest` returns a nil error and the Version command: the tokens
after `version` have no effect. -/
theorem version_ignores_rest (cmd : String) (rest : List String) :
    Parse ([cmd, "version"] ++ rest) = (some .Version, none) := by
  simp [Parse, flagParse_nonFlag topFormal "version" rest () nonFlag_version]

/-! ## Lemmas on `Sprintf` and `usage` -/

set_option maxRecDepth 10000

/-- Text without `%` is copied to the output as it stands. -/
theorem doPrintf_literal (l format : List Char) (args : List String) (h : '%' ∉ l) :
    doPrintf (l ++ format) args = l ++ doPrintf format args := by
  induction l with
  | nil => rfl
  | cons c l ih =>
    have hc : c ≠ '%' := fun e => h (e ▸ List.mem_cons_self _ _)
    have hl : '%' ∉ l := fun e => h (List.mem_cons_of_mem _ e)
    rw [List.cons_append, doPrintf]
    · rw [ih hl, List.cons_append]
    all_goals (intros; contradiction)

/-- The verb `%s` writes the next operand as it stands. -/
theorem doPrintf_verb_s (format : List Char) (a : String) (args : List String) :
    doPrintf ('%' :: 's' :: format) (a :: args) = a.data ++ doPrintf format args := by
  simp [doPrintf]

/-- The format of `usage` is the eight fixed texts with a `%s` between each two. -/
theorem usageFormat_data :
    usageFormat.data =
      usageHead.data ++ '%' :: 's' :: (usageGen.data ++ '%' :: 's' :: (usageHelp.data ++
        '%' :: 's' :: (usageBody.data ++ '%' :: 's' :: (usageExample1.data ++
        '%' :: 's' :: (usageExample2.data ++ '%' :: 's' :: (usageExample3.data ++
        '%' :: 's' :: (usageTail.data ++ []))))))) := by
  rfl

/-- The text `usage` renders: the eight fixed texts with `cmd` between each two. -/
theorem usage_eq (cmd : String) :
    usage cmd =
      usageHead ++ cmd ++ usageGen ++ cmd ++ usageHelp ++ cmd ++ usageBody ++ cmd ++
        usageExample1 ++ cmd ++ usageExample2 ++ cmd ++ usageExample3 ++ cmd ++ usageTail := by
  apply String.ext
  simp only [usage, Sprintf, usageFormat_data, String.data_append]
  rw [doPrintf_literal _ _ _ (by decide), doPrintf_verb_s,
    doPrintf_literal _ _ _ (by decide), doPrintf_verb_s,
    doPrintf_literal _ _ _ (by decide), doPrintf_verb_s,
    doPrintf_literal _ _ _ (by decide), doPrintf_verb_s,
    doPrintf_literal _ _ _ (by decide), doPrintf_verb_s,
    doPrintf_literal _ _ _ (by decide), doPrintf_verb_s,
    doPrintf_literal _ _ _ (by decide), doPrintf_verb_s,
    doPrintf_literal _ _ _ (by decide)]
  simp [doPrintf, extraOperands]

/-! ## The outcome of a parse does not depend on the invoked name -/

/-- The outcome of `parseGen` on given arguments is the same for every command
name, up to the name rendered in the usage text. -/
theorem parseGen_uniform (args : List String) :
    (∃ c, ∀ cmd, parseGen cmd args = (some (.Generate c), none))
      ∨ (∀ cmd, parseGen cmd args = (some (.Help (usage cmd)), none))
      ∨ (∃ m, ∀ cmd, parseGen cmd args = (none, some (usageErr m cmd))) := by
  cases h : flagParse genFormal args genDefaults with
  | error e =>
    cases e with
    | ErrHelp => exact Or.inr (Or.inl fun cmd => by simp [parseGen, h])
    | failf m => exact Or.inr (Or.inr ⟨m, fun cmd => by simp [parseGen, h, FlagError.Error]⟩)
  | ok r =>
    obtain ⟨fl, patterns⟩ := r
    cases patterns with
    | nil => exact Or.inr (Or.inr ⟨"missing PATTERN", fun cmd => by simp [parseGen, h]⟩)
    | cons q qs => exact Or.inl ⟨_, fun cmd => parseGen_of_ok cmd args fl q qs h⟩

/-- The outcome of `Parse` on a non-empty argument vector is the same for every
first element, up to the name rendered in the usage text. -/
theorem Parse_uniform (tail : List String) :
    (∀ n, Parse (n :: tail) = (some .Version, none))
      ∨ (∃ c, ∀ n, Parse (n :: tail) = (some (.Generate c), none))
      ∨ (∀ n, Parse (n :: tail) = (some (.Help (usage n)), none))
      ∨ (∃ m, ∀ n, Parse (n :: tail) = (none, some (usageErr m n))) := by
  cases h : flagParse topFormal tail () with
  | error e =>
    cases e with
    | ErrHelp => exact Or.inr (Or.inr (Or.inl fun n => by simp [Parse, h]))
    | failf m =>
      exact Or.inr (Or.inr (Or.inr ⟨m, fun n => by simp [Parse, h, FlagError.Error]⟩))
  | ok r =>
    obtain ⟨u, subArgs⟩ := r
    cases subArgs with
    | nil => exact Or.inr (Or.inr (Or.inr ⟨"missing command", fun n => by simp [Parse, h]⟩))
    | cons sub rest =>
      by_cases hgen : sub = "gen"
      · have hP : ∀ n, Parse (n :: tail) = parseGen n rest := fun n => by
          simp [Parse, h, hgen]
        rcases parseGen_uniform rest with ⟨c, hc⟩ | hh | ⟨m, hm⟩
        · exact Or.inr (Or.inl ⟨c, fun n => by rw [hP, hc]⟩)
        · exact Or.inr (Or.inr (Or.inl fun n => by rw [hP, hh]))
        · exact Or.inr (Or.inr (Or.inr ⟨m, fun n => by rw [hP, hm]⟩))
      · by_cases hversion : sub = "version"
        · exact Or.inl fun n => by simp [Parse, h, hversion]
        · by_cases hhelp : sub = "help"
          · exact Or.inr (Or.inr (Or.inl fun n => by simp [Parse, h, hhelp]))
          · exact Or.inr (Or.inr (Or.inr ⟨"unknown command " ++ sub, fun n => by
              simp [Parse, h, hgen, hversion, hhelp]⟩))

/-- A flag that the top-level flag set does not define, and that is not a help
flag, makes `Parse` fail with the message of the flag package. -/
theorem Parse_undefined_flag (cmd s name : String) (rest : List String)
    (hs : classify s = .flag name none) (hn : (name == "help" || name == "h") = false) :
    Parse (cmd :: s :: rest) =
      (none, some (usageErr ("flag provided but not defined: -" ++ name) cmd)) := by
  have hp : flagParse topFormal (s :: rest) () =
      .error (.failf ("flag provided but not defined: -" ++ name)) := by
    rw [flagParse, hs]
    simp [topFormal, hn]
  simp [Parse, hp, FlagError.Error]

/-- The error text of a message made of a fixed part and a variable part. -/
theorem usageErr_append (a b cmd : String) :
    usageErr (a ++ b) cmd = "Error: " ++ a ++ b ++ "\n" ++ usage cmd := by
  simp only [usageErr, String.append_assoc]

/-- C11: for every two names, also names spelled like a flag or a sub-command,
and every tail, `Parse` of the one name before the tail and of the other have
the same outcome up to the rendered name: both are Version, or both are
Generate with equal configurations, or both are Help with the usage text of
their own name, or both are errors with the same message followed by the usage
text of their own name. -/
theorem name_only_rendered (n1 n2 : String) (tail : List String) :
    (Parse (n1 :: tail) = (some .Version, none) ∧ Parse (n2 :: tail) = (some .Version, none))
      ∨ (∃ c, Parse (n1 :: tail) = (some (.Generate c), none)
          ∧ Parse (n2 :: tail) = (some (.Generate c), none))
      ∨ (Parse (n1 :: tail) = (some (.Help (usage n1)), none)
          ∧ Parse (n2 :: tail) = (some (.Help (usage n2)), none))
      ∨ (∃ m, Parse (n1 :: tail) = (none, some ("Error: " ++ m ++ "\n" ++ usage n1))
          ∧ Parse (n2 :: tail) = (none, some ("Error: " ++ m ++ "\n" ++ usage n2))) := by
  rcases Parse_uniform tail with hv | ⟨c, hc⟩ | hh | ⟨m, hm⟩
  · exact Or.inl ⟨hv n1, hv n2⟩
  · exact Or.inr (Or.inl ⟨c, hc n1, hc n2⟩)
  · exact Or.inr (Or.inr (Or.inl ⟨hh n1, hh n2⟩))
  · exact Or.inr (Or.inr (Or.inr ⟨m, hm n1, hm n2⟩))

/-- C12: for every command name, every list `rest` and every name among `g`,
`global`, `build-tags`, `output-constraint` and `cwd`, `Parse` of the command
name, `-` followed by the name, and `rest` returns no command and the error
text `Error: flag provided but not defined: -name`, a newline, and `usage` of
the command name: the options of `gen` are rejected before the sub-command. -/
theorem gen_options_rejected_before_gen (cmd name : String) (rest : List String)
    (h : name ∈ ["g", "global", "build-tags", "output-constraint", "cwd"]) :
    Parse ([cmd, "-" ++ name] ++ rest) =
      (none, some ("Error: flag provided but not defined: -" ++ name ++ "\n" ++ usage cmd)) := by
  have hlit : "Error: flag provided but not defined: -" =
      "Error: " ++ "flag provided but not defined: -" := by decide
  have hs : classify ("-" ++ name) = .flag name none := by
    simp only [List.mem_cons, List.mem_singleton, List.not_mem_nil, or_false] at h
    rcases h with h | h | h | h | h <;> subst h <;> decide
  have hn : (name == "help" || name == "h") = false := by
    simp only [List.mem_cons, List.mem_singleton, List.not_mem_nil, or_false] at h
    rcases h with h | h | h | h | h <;> subst h <;> decide
  show Parse (cmd :: ("-" ++ name) :: rest) = _
  rw [Parse_undefined_flag cmd _ name rest hs hn, usageErr_append, hlit]

theorem gen_options_rejected_before_gen_witness :
    Parse (["x", "-" ++ "cwd"] ++ ["d", "gen", "./pkg"]) =
      (none, some ("Error: flag provided but not defined: -" ++ "cwd" ++ "\n" ++ usage "x")) :=
  gen_options_rejected_before_gen "x" "cwd" ["d", "gen", "./pkg"] (by decide)

/-- C13: for every argument vector, if `Parse` returns an error then its text
is `Error: `, a message, a newline, and `usage` of the invoked name, which is
the first argument, or `unknown` when the vector is empty. -/
theorem errors_carry_usage (args : List String) (e : String)
    (h : (Parse args).2 = some e) :
    ∃ m, e = "Error: " ++ m ++ "\n" ++ usage (args.headD "unknown") := by
  cases args with
  | nil =>
    refine ⟨"invalid args", ?_⟩
    simpa [Parse, usageErr, eq_comm] using h
  | cons n tail =>
    rcases Parse_uniform tail with hv | ⟨c, hc⟩ | hh | ⟨m, hm⟩
    · rw [hv n] at h; simp at h
    · rw [hc n] at h; simp at h
    · rw [hh n] at h; simp at h
    · rw [hm n] at h
      exact ⟨m, by simpa [usageErr, eq_comm] using h⟩

theorem errors_carry_usage_witness :
    ∃ m, "Error: unknown command frobnicate\n" ++ usage "x" =
      "Error: " ++ m ++ "\n" ++ usage (["x", "frobnicate"].headD "unknown") :=
  errors_carry_usage ["x", "frobnicate"] _
    (by
      have hlit : "Error: unknown command frobnicate\n" =
          "Error: " ++ ("unknown command " ++ "frobnicate") ++ "\n" := by decide
      rw [hlit]
      rfl)

theorem classify_terminator : classify "--" = .terminator := by decide

/-- C14: `Parse` of the empty argument vector returns no command and the
error text `Error: invalid args`, a newline, and `usage` of `unknown`. -/
theorem empty_args_error :
    Parse [] = (none, some ("Error: invalid args\n" ++ usage "unknown")) := by
  have hlit : "Error: invalid args\n" = "Error: " ++ "invalid args" ++ "\n" := by decide
  rw [hlit]
  rfl

/-- C15: for every command name, `Parse` of the name alone returns no command
and the error text `Error: missing command`, a newline, and `usage` of the
name; so does `Parse` of the name followed by `--`, where the terminator is
consumed and no sub-argument is left. -/
theorem missing_command (cmd : String) :
    Parse [cmd] = (none, some ("Error: missing command\n" ++ usage cmd))
      ∧ Parse [cmd, "--"] = (none, some ("Error: missing command\n" ++ usage cmd)) := by
  have hlit : "Error: missing command\n" = "Error: " ++ "missing command" ++ "\n" := by
    decide
  rw [hlit]
  refine ⟨?_, ?_⟩
  · simp [Parse, flagParse, usageErr]
  · simp [Parse, flagParse, classify_terminator, usageErr]

/-- C16: for every argument vector, `Parse` returns exactly one of a command
and an error: either the command is not nil and the error is nil, or the
command is nil and the error is not nil. -/
theorem exactly_one_of_command_and_error (args : List String) :
    ((Parse args).1 ≠ none ∧ (Parse args).2 = none)
      ∨ ((Parse args).1 = none ∧ (Parse args).2 ≠ none) := by
  cases args with
  | nil => exact Or.inr (by simp [Parse])
  | cons n tail =>
    rcases Parse_uniform tail with hv | ⟨c, hc⟩ | hh | ⟨m, hm⟩
    · exact Or.inl (by simp [hv n])
    · exact Or.inl (by simp [hc n])
    · exact Or.inl (by simp [hh n])
    · exact Or.inr (by simp [hm n])

/-- C17: for every string `cmd`, also one that contains `%` or newlines,
`usage cmd` is eight fixed texts with `cmd` between each two, so `cmd` is
inserted as it stands seven times: after the indentation of the three synopsis
lines, where ` gen`, ` help` and ` version` follow it, and after the
indentation of the four example lines, where ` gen` follows it.  None of the
fixed texts contains a `%`, so no placeholder is left over or missing. -/
theorem usage_inserts_name_seven_times (cmd : String) :
    usage cmd =
        usageHead ++ cmd ++ usageGen ++ cmd ++ usageHelp ++ cmd ++ usageBody ++ cmd ++
          usageExample1 ++ cmd ++ usageExample2 ++ cmd ++ usageExample3 ++ cmd ++ usageTail
      ∧ (∀ s ∈ [usageHead, usageGen, usageHelp, usageBody, usageExample1, usageExample2,
          usageExample3, usageTail], '%' ∉ s.data)
      ∧ (∀ s ∈ [usageHead, usageGen, usageHelp, usageBody, usageExample1, usageExample2,
          usageExample3], "\n  ".data <:+ s.data)
      ∧ " gen [OPTIONS] ".data <+: usageGen.data
      ∧ " help\n".data <+: usageHelp.data
      ∧ " version\n".data <+: usageBody.data
      ∧ (∀ s ∈ [usageExample1, usageExample2, usageExample3, usageTail],
          " gen ".data <+: s.data) := by
  refine ⟨usage_eq cmd, ?_, ?_, ?_, ?_, ?_, ?_⟩ <;> decide

/-- C18, as stated, fails: `usage "x"` does not begin with the header line
followed by the line `  x gen [OPTIONS] PATTERN...`; it begins with the header
line followed by `  x gen [OPTIONS] PACKAGE...`. -/
theorem usage_synopsis_is_not_PATTERN :
    ¬ (("Usage:\n" ++ ("  " ++ "x" ++ " gen [OPTIONS] PATTERN...") ++ "\n").data
        <+: (usage "x").data)
      ∧ (("Usage:\n" ++ ("  " ++ "x" ++ " gen [OPTIONS] PACKAGE...") ++ "\n").data
        <+: (usage "x").data) := by
  decide

/-- C18, amended: for every command name, the line of `usage` that follows the
header line `Usage:` is two blanks, the name, and ` gen [OPTIONS] PACKAGE...`:
the usage text names the positional argument PACKAGE. -/
theorem usage_synopsis_is_PACKAGE (cmd : String) :
    ("Usage:\n" ++ ("  " ++ cmd ++ " gen [OPTIONS] PACKAGE...") ++ "\n").data
      <+: (usage cmd).data := by
  have hhead : usageHead = "Usage:\n" ++ "  " := by decide
  have hgen : usageGen = " gen [OPTIONS] PACKAGE..." ++ "\n" ++ "  " := by decide
  rw [usage_eq, hhead, hgen]
  refine ⟨("  " ++ cmd ++ usageHelp ++ cmd ++ usageBody ++ cmd ++ usageExample1 ++ cmd ++
    usageExample2 ++ cmd ++ usageExample3 ++ cmd ++ usageTail).data, ?_⟩
  simp only [String.data_append, List.append_assoc]

/-- C19: for every command name, every flag prefix `F` whose tokens the flag
parser of `parseGen` reads as defined flags and their values, and every
non-empty list `ps` of arbitrary strings, `parseGen` on `F`, `--` and `ps`
returns Generate with `PackagePatterns = ps` and with the other fields taken
from the flag variables that parsing `F` alone leaves: the terminator is
consumed, is not a pattern, and ends the reading of flags. -/
theorem terminator_ends_flags (cmd : String) (F ps : List String)
    (hF : readsAsFlags genFormal F = true) (hps : ps ≠ []) :
    ∃ fl, flagParse genFormal F genDefaults = .ok (fl, [])
      ∧ parseGen cmd (F ++ ["--"] ++ ps) = (some (.Generate
          { PackagePatterns := ps
            BuildTags := fl.buildTags
            OutputBuildConstraint := fl.outputConstraint
            WorkingDir := fl.cwd
            EnumTransformers := []
            Global := { Lines := fl.global, Location := "command line (-g, -global)" } }),
          none) := by
  obtain ⟨fl, h1⟩ := flagParse_readsAsFlags genFormal F hF genDefaults
  obtain ⟨q, qs, rfl⟩ := List.exists_cons_of_ne_nil hps
  refine ⟨fl, ?_, ?_⟩
  · have h0 := h1 []
    rwa [List.append_nil, flagParse_nil] at h0
  · apply parseGen_of_ok
    rw [List.append_assoc, h1, List.singleton_append, flagParse, classify_terminator]

theorem terminator_ends_flags_witness :
    ∃ fl, flagParse genFormal ["-g", "a", "-cwd=d"] genDefaults = .ok (fl, [])
      ∧ parseGen "x" (["-g", "a", "-cwd=d"] ++ ["--"] ++ ["-h", "-bogus", "--"]) =
          (some (.Generate
          { PackagePatterns := ["-h", "-bogus", "--"]
            BuildTags := fl.buildTags
            OutputBuildConstraint := fl.outputConstraint
            WorkingDir := fl.cwd
            EnumTransformers := []
            Global := { Lines := fl.global, Location := "command line (-g, -global)" } }),
          none) :=
  terminator_ends_flags "x" ["-g", "a", "-cwd=d"] ["-h", "-bogus", "--"] (by decide)
    (by decide)

/-- A string flag given twice leaves the flag variables as the second value
alone would. -/
theorem flagParse_twice (s name v1 v2 p : String) (set : String → GenFlags → GenFlags)
    (hs : classify s = .flag name none) (hf : genFormal name = some set) (hp : nonFlag p)
    (hset : set v2 (set v1 genDefaults) = set v2 genDefaults) :
    flagParse genFormal [s, v1, s, v2, p] genDefaults = .ok (set v2 genDefaults, [p])
      ∧ flagParse genFormal [s, v2, p] genDefaults = .ok (set v2 genDefaults, [p]) := by
  refine ⟨?_, ?_⟩
  · rw [flagParse_flag_next genFormal s name v1 _ _ set hs hf,
      flagParse_flag_next genFormal s name v2 _ _ set hs hf,
      flagParse_nonFlag genFormal p [] _ hp, hset]
  · rw [flagParse_flag_next genFormal s name v2 _ _ set hs hf,
      flagParse_nonFlag genFormal p [] _ hp]

/-- C20: for every command name, all strings `v1` and `v2` and every non-flag
token `p`, a scalar flag of `gen` given twice keeps the last value and nothing
accumulates: `-cwd v1 -cwd v2 p` gives Generate with `WorkingDir = v2`,
`-build-tags` twice gives `BuildTags = v2`, `-output-constraint` twice gives
`OutputBuildConstraint = v2`, and each result is that of the flag given once
with `v2`. -/
theorem scalar_flag_last_wins (cmd v1 v2 p : String) (hp : nonFlag p) :
    (parseGen cmd ["-cwd", v1, "-cwd", v2, p] = parseGen cmd ["-cwd", v2, p]
        ∧ parseGen cmd ["-cwd", v1, "-cwd", v2, p] = (some (.Generate
          { PackagePatterns := [p]
            BuildTags := "goverter"
            OutputBuildConstraint := "!goverter"
            WorkingDir := v2
            EnumTransformers := []
            Global := { Lines := [], Location := "command line (-g, -global)" } }), none))
      ∧ (parseGen cmd ["-build-tags", v1, "-build-tags", v2, p] =
            parseGen cmd ["-build-tags", v2, p]
        ∧ parseGen cmd ["-build-tags", v1, "-build-tags", v2, p] = (some (.Generate
          { PackagePatterns := [p]
            BuildTags := v2
            OutputBuildConstraint := "!goverter"
            WorkingDir := ""
            EnumTransformers := []
            Global := { Lines := [], Location := "command line (-g, -global)" } }), none))
      ∧ (parseGen cmd ["-output-constraint", v1, "-output-constraint", v2, p] =
            parseGen cmd ["-output-constraint", v2, p]
        ∧ parseGen cmd ["-output-constraint", v1, "-output-constraint", v2, p] =
          (some (.Generate
          { PackagePatterns := [p]
            BuildTags := "goverter"
            OutputBuildConstraint := v2
            WorkingDir := ""
            EnumTransformers := []
            Global := { Lines := [], Location := "command line (-g, -global)" } }), none)) := by
  obtain ⟨hc1, hc2⟩ := flagParse_twice "-cwd" "cwd" v1 v2 p _ classify_cwd rfl hp rfl
  obtain ⟨hb1, hb2⟩ :=
    flagParse_twice "-build-tags" "build-tags" v1 v2 p _ classify_build_tags rfl hp rfl
  obtain ⟨ho1, ho2⟩ := flagParse_twice "-output-constraint" "output-constraint" v1 v2 p _
    classify_output_constraint rfl hp rfl
  refine ⟨⟨?_, ?_⟩, ⟨?_, ?_⟩, ⟨?_, ?_⟩⟩
  · rw [parseGen_of_ok cmd _ _ p [] hc1, parseGen_of_ok cmd _ _ p [] hc2]
  · rw [parseGen_of_ok cmd _ _ p [] hc1]; rfl
  · rw [parseGen_of_ok cmd _ _ p [] hb1, parseGen_of_ok cmd _ _ p [] hb2]
  · rw [parseGen_of_ok cmd _ _ p [] hb1]; rfl
  · rw [parseGen_of_ok cmd _ _ p [] ho1, parseGen_of_ok cmd _ _ p [] ho2]
  · rw [parseGen_of_ok cmd _ _ p [] ho1]; rfl

theorem scalar_flag_last_wins_witness :
    nonFlag "./pkg"
      ∧ parseGen "x" ["-cwd", "a", "-cwd", "b", "./pkg"] = parseGen "x" ["-cwd", "b", "./pkg"]
      ∧ parseGen "x" ["-cwd", "a", "-cwd", "b", "./pkg"] = (some (.Generate
          { PackagePatterns := ["./pkg"]
            BuildTags := "goverter"
            OutputBuildConstraint := "!goverter"
            WorkingDir := "b"
            EnumTransformers := []
            Global := { Lines := [], Location := "command line (-g, -global)" } }), none) :=
  ⟨by decide, (scalar_flag_last_wins "x" "a" "b" "./pkg" (by decide)).1⟩

end Cli
